import Mathlib

/-!
Verification development for the `certificate` package of the lego ACME client
(`src/certificate/certificates.go`).  The Go code is shallowly embedded: the
external collaborators (the ACME API core, the challenge solver and the
`certcrypto` primitives, which the specification treats as narrow external
contracts) are abstracted as a record `Env` of oracle functions, byte slices
become `List Nat`, `time.Duration` becomes `Int` (nanoseconds), and fallible
calls return `Except Err`.  Observable side effects (authorization
deactivation, the wait-primitive invocation, CSR construction) are recorded in
an effect trace.  Out-of-tree helpers of the repository itself
(`platform/wait.For`, `certificate/authorization.go`,
`certificate/errors.go`, `challenge.GetTargetedDomain`) are modelled from the
specification, as marked on their doc comments.
-/

namespace LegoCert

/-- Raw bytes (`[]byte` in Go); `[]` plays the role of a nil slice. -/
abbrev Bytes := List Nat

/-- An opaque private key handle (`crypto.PrivateKey`). -/
abbrev PrivateKey := Nat

/-- ACME order status (`acme.Status*` string constants used by
`checkOrderStatus`). -/
inductive OrderStatus where
  | pending
  | ready
  | processing
  | valid
  | invalid
  deriving DecidableEq, Repr

/-- `acme.ExtendedOrder`: the fields read by `certificates.go`.
`ProblemDetail` stands for the CA problem rendered by `order.Err()`. -/
structure ExtendedOrder where
  Status : OrderStatus := .pending
  Identifiers : List String := []
  Authorizations : List String := []
  Finalize : String := ""
  Location : String := ""
  Certificate : String := ""
  ProblemDetail : String := ""
  deriving DecidableEq, Repr

/-- `acme.Authorization`, reduced to the domain it targets (the only part the
orchestrator reads, through `challenge.GetTargetedDomain`). -/
structure Authorization where
  Domain : String := ""
  deriving DecidableEq, Repr

/-- `certificate.Resource`. -/
structure Resource where
  Domain : String := ""
  CertURL : String := ""
  CertStableURL : String := ""
  PrivateKey : Bytes := []
  Certificate : Bytes := []
  IssuerCertificate : Bytes := []
  CSR : Bytes := []
  deriving DecidableEq, Repr

/-- One entry of the map returned by `Certificates.GetAll`. -/
structure ChainEntry where
  Cert : Bytes := []
  Issuer : Bytes := []
  deriving DecidableEq, Repr

/-- The fields of a parsed `x509.Certificate` that `certificates.go` reads. -/
structure X509Cert where
  IsCA : Bool := false
  IssuerCommonName : String := ""
  SubjectCommonName : String := ""
  DNSNames : List String := []
  deriving DecidableEq, Repr

/-- An `x509.CertificateRequest`: its DER bytes plus the domains that
`certcrypto.ExtractDomainsCSR` reports for it (CommonName + SANs). -/
structure CertificateRequest where
  Raw : Bytes := []
  Domains : List String := []
  deriving DecidableEq, Repr

/-- `certcrypto.CSROptions` as filled in by `getForOrder`. -/
structure CSROptions where
  Domain : String := ""
  SAN : List String := []
  MustStaple : Bool := false
  EmailAddresses : List String := []
  deriving DecidableEq, Repr

/-- Errors produced by the embedded pipeline.  `api` tags an error coming back
from an external call; `invalidOrder` is the error built by
`checkOrderStatus`; `timeout` is the wait primitive's expiry; `parsePEM` tags
a `certcrypto.ParsePEMBundle` failure; `panicDomains0` marks the out-of-bounds
access `domains[0]` on an empty slice and `panicEmptyBundle` the access
`certs[len(certs)-1]` / `certs[0]` on an empty parse result; `aggregate` is
the composite error of the Error Aggregator. -/
inductive Err where
  | noDomains
  | missingCSR
  | api (s : String)
  | invalidOrder (detail : String)
  | timeout
  | parsePEM (s : String)
  | caCertificate (domain : String)
  | panicDomains0
  | panicEmptyBundle
  | aggregate (pairs : List (String × Err))

/-- Observable side effects of one orchestrator run. -/
inductive Effect where
  | newOrderCall (domains : List String)
  | deactivate (authzURL : String)
  | waitCall (timeout interval : Int)
  | csrCall (opts : CSROptions)
  deriving DecidableEq, Repr

/-- Result of a top-level run: effect trace, the returned `*Resource`
(`none` for Go `nil`) and the returned error. -/
abbrev RunResult := List Effect × Option Resource × Option Err

/-- `api.OrderOptions`. -/
structure OrderOptions where
  NotBefore : Int := 0
  NotAfter : Int := 0
  Profile : String := ""
  ReplacesCertID : String := ""
  deriving DecidableEq, Repr

/-- `certificate.ObtainRequest`. -/
structure ObtainRequest where
  Domains : List String := []
  PrivateKey : Option PrivateKey := none
  MustStaple : Bool := false
  EmailAddresses : List String := []
  NotBefore : Int := 0
  NotAfter : Int := 0
  Bundle : Bool := false
  PreferredChain : String := ""
  Profile : String := ""
  AlwaysDeactivateAuthorizations : Bool := false
  ReplacesCertID : String := ""
  deriving DecidableEq, Repr

/-- `certificate.ObtainForCSRRequest`.  Note: it has no MustStaple and no
EmailAddresses field (those are baked into the CSR). -/
structure ObtainForCSRRequest where
  CSR : Option CertificateRequest := none
  PrivateKey : Option PrivateKey := none
  NotBefore : Int := 0
  NotAfter : Int := 0
  Bundle : Bool := false
  PreferredChain : String := ""
  Profile : String := ""
  AlwaysDeactivateAuthorizations : Bool := false
  ReplacesCertID : String := ""
  deriving DecidableEq, Repr

/-- `certificate.RenewOptions`. -/
structure RenewOptions where
  NotBefore : Int := 0
  NotAfter : Int := 0
  Bundle : Bool := false
  PreferredChain : String := ""
  Profile : String := ""
  AlwaysDeactivateAuthorizations : Bool := false
  MustStaple : Bool := false
  EmailAddresses : List String := []
  deriving DecidableEq, Repr

/-- `certificate.CertifierOptions`. -/
structure CertifierOptions where
  KeyType : String := ""
  Timeout : Int := 0
  OverallRequestLimit : Int := 0
  DisableCommonName : Bool := false
  deriving DecidableEq, Repr

/-- `certificate.Certifier` (the `core` and `resolver` dependencies live in
`Env`). -/
structure Certifier where
  options : CertifierOptions := {}
  overallRequestLimit : Int := 0
  deriving DecidableEq, Repr

/-- The external collaborators, exactly the narrow contracts of spec section 6:
the ACME API core, the challenge solver and the `certcrypto` pure functions. -/
structure Env where
  toASCII : String → Except String String
  newOrder : List String → OrderOptions → Except Err ExtendedOrder
  getAuthorizations : ExtendedOrder → Except Err (List Authorization)
  solve : List Authorization → Option Err
  generatePrivateKey : String → Except Err PrivateKey
  createCSR : PrivateKey → CSROptions → Except Err Bytes
  pemEncodeKey : PrivateKey → Bytes
  pemEncodeCSR : CertificateRequest → Bytes
  extractDomainsCSR : CertificateRequest → List String
  updateForCSR : String → Bytes → Except Err ExtendedOrder
  ordersGet : Nat → String → Except Err ExtendedOrder
  getAll : String → Bool → Except Err (List (String × ChainEntry))
  parsePEMBundle : Bytes → Except Err (List X509Cert)
  pemDecodeCSR : Bytes → Except Err CertificateRequest
  parsePEMPrivateKey : Bytes → Except Err PrivateKey
  extractDomains : X509Cert → List String
  certificatesGet : String → Bool → Except Err (Bytes × Bytes)
  getCertificateMainDomain : X509Cert → Except Err String

/-- `DefaultOverallRequestLimit`. -/
def DefaultOverallRequestLimit : Int := 18

/-- One nanosecond-based second, the unit of `time.Duration`. -/
def second : Int := 1000000000

/-- `NewCertifier`. -/
def NewCertifier (options : CertifierOptions) : Certifier :=
  { options := options
    overallRequestLimit :=
      if options.OverallRequestLimit ≤ 0 then DefaultOverallRequestLimit
      else options.OverallRequestLimit }

/-- `sanitizeDomain` (certificates.go lines 723-734): punycode-encode every
domain, silently dropping the ones `idna.ToASCII` rejects. -/
def sanitizeDomain (env : Env) (domains : List String) : List String :=
  domains.filterMap (fun domain => (env.toASCII domain).toOption)

/-- Modelled from the spec: `challenge.GetTargetedDomain` (package
`challenge`) is not under src/.  Per spec section 3 each authorization targets
exactly one domain, which it reports. -/
def getTargetedDomain (auth : Authorization) : String := auth.Domain

/-- Modelled from the spec: `deactivateAuthorizations`
(certificate/authorization.go) is not under src/.  Per spec section 4.2 step 5
and section 8, failures trigger authorization deactivation only "if
requested" via `AlwaysDeactivateAuthorizations`; when not requested no
deactivation call is issued, when requested every authorization of the order
is deactivated. -/
def deactivateAuthorizations (order : ExtendedOrder) (force : Bool) : List Effect :=
  if force then order.Authorizations.map Effect.deactivate else []

/-- Modelled from the spec: the Error Aggregator (certificate/errors.go,
`newObtainError` / `Add` / `Join`) is not under src/.  Per spec section 4.5
joining zero entries yields no error and joining one or more yields a single
composite error carrying every (domain, cause) pair. -/
def obtainErrorJoin (pairs : List (String × Err)) : Option Err :=
  match pairs with
  | [] => none
  | _ => some (.aggregate pairs)

/-- `checkOrderStatus` (lines 707-716). -/
def checkOrderStatus (order : ExtendedOrder) : Bool × Option Err :=
  match order.Status with
  | .valid => (true, none)
  | .invalid => (false, some (.invalidOrder order.ProblemDetail))
  | _ => (false, none)

/-- `hasPreferredChain` (lines 692-705): parse the issuer bundle and compare
the topmost certificate's issuer common name with the preference. -/
def hasPreferredChain (env : Env) (issuer : Bytes) (preferredChain : String) :
    Except Err Bool :=
  match env.parsePEMBundle issuer with
  | .error e => .error e
  | .ok certs =>
    match certs.getLast? with
    | none => .error .panicEmptyBundle
    | some topCert => .ok (topCert.IssuerCommonName = preferredChain)

/-- Go map access `certs[url]`: the zero `ChainEntry` when the key is absent. -/
def lookupCert (certs : List (String × ChainEntry)) (url : String) : ChainEntry :=
  match certs with
  | [] => {}
  | (k, v) :: rest => if k = url then v else lookupCert rest url

/-- The `for link, cert := range certs` loop of `checkResponse`
(lines 419-435): first candidate whose issuer chain matches the preference
wins; no match falls back to the already-stored default and still succeeds. -/
def findPreferred (env : Env) (preferredChain : String) :
    List (String × ChainEntry) → Resource → Resource × Except Err Bool
  | [], certRes => (certRes, .ok true)
  | (link, cert) :: rest, certRes =>
    match hasPreferredChain env cert.Issuer preferredChain with
    | .error e => (certRes, .error e)
    | .ok true =>
      ({ certRes with
          IssuerCertificate := cert.Issuer
          Certificate := cert.Cert
          CertURL := link
          CertStableURL := link }, .ok true)
    | .ok false => findPreferred env preferredChain rest certRes

/-- `checkResponse` (lines 396-440).  The Go function mutates `certRes`
through a pointer; here it returns the updated resource next to its
`(bool, error)` result, also on the error paths, so that partially applied
mutations stay observable. -/
def checkResponse (env : Env) (order : ExtendedOrder) (certRes : Resource)
    (bundle : Bool) (preferredChain : String) : Resource × Except Err Bool :=
  match checkOrderStatus order with
  | (_, some e) => (certRes, .error e)
  | (false, none) => (certRes, .ok false)
  | (true, none) =>
    match env.getAll order.Certificate bundle with
    | .error e => (certRes, .error e)
    | .ok certs =>
      let dflt := lookupCert certs order.Certificate
      let withDefault :=
        { certRes with
            IssuerCertificate := dflt.Issuer
            Certificate := dflt.Cert
            CertURL := order.Certificate
            CertStableURL := order.Certificate }
      if preferredChain = "" then (withDefault, .ok true)
      else findPreferred env preferredChain certs withDefault

/-- The body of the polling closure handed to `wait.For` by `getForCSR`
(lines 371-383), indexed by the sample number: fetch the order at its
location, then run `checkResponse` on it. -/
def pollOnce (env : Env) (order : ExtendedOrder) (bundle : Bool)
    (preferredChain : String) (step : Nat) (certRes : Resource) :
    Resource × Except Err Bool :=
  match env.ordersGet step order.Location with
  | .error e => (certRes, .error e)
  | .ok ord => checkResponse env ord certRes bundle preferredChain

/-- Modelled from the spec: the wait primitive `platform/wait.For` is not
under src/.  Per spec section 4.3 the check is sampled at the given interval
within a fixed total timeout, so the poll budget is `timeout / interval`
samples; a sample that reports done succeeds, a terminal error (spec: order
status `invalid`, or a fetch failure) is fatal immediately, and an exhausted
budget is a timeout failure distinct from the CA rejection. -/
def waitForAux (env : Env) (order : ExtendedOrder) (bundle : Bool)
    (preferredChain : String) :
    Nat → Nat → Resource → Resource × Option Err
  | 0, _, certRes => (certRes, some .timeout)
  | fuel + 1, step, certRes =>
    match pollOnce env order bundle preferredChain step certRes with
    | (r, .error e) => (r, some e)
    | (r, .ok true) => (r, none)
    | (r, .ok false) => waitForAux env order bundle preferredChain fuel (step + 1) r

/-- Modelled from the spec: entry point of the wait primitive (see
`waitForAux`); the budget of samples is `timeout / interval`. -/
def waitFor (env : Env) (order : ExtendedOrder) (bundle : Bool)
    (preferredChain : String) (timeout interval : Int) (certRes : Resource) :
    Resource × Option Err :=
  waitForAux env order bundle preferredChain (timeout / interval).toNat 0 certRes

/-- The poll-timeout computation of `getForCSR` (lines 366-369): the
configured `CertifierOptions.Timeout` unless that is non-positive, in which
case 30 time-units. -/
def pollTimeout (c : Certifier) : Int :=
  if c.options.Timeout ≤ 0 then 30 * second else c.options.Timeout

/-- The poll phase of `getForCSR` (lines 366-385): call the wait primitive
with the computed timeout and a `timeout/60` sampling interval, and return
the threaded resource also when the wait fails. -/
def pollPhase (env : Env) (c : Certifier) (order : ExtendedOrder)
    (bundle : Bool) (preferredChain : String) (certRes : Resource) : RunResult :=
  match waitFor env order bundle preferredChain (pollTimeout c)
      (pollTimeout c / 60) certRes with
  | (rF, eF) => ([.waitCall (pollTimeout c) (pollTimeout c / 60)], some rF, eF)

/-- `getForCSR` (lines 342-386): finalize the order, build the initial
resource (accessing `domains[0]`), take the fast path when the order is
already valid, otherwise poll within the configured timeout at `timeout/60`
intervals.  The poll path returns the (possibly partially filled) resource
also on error, the fast path returns nil on error. -/
def getForCSR (env : Env) (c : Certifier) (domains : List String)
    (order : ExtendedOrder) (bundle : Bool) (csr privateKeyPem : Bytes)
    (preferredChain : String) : RunResult :=
  match env.updateForCSR order.Finalize csr with
  | .error e => ([], none, some e)
  | .ok respOrder =>
    match domains with
    | [] => ([], none, some .panicDomains0)
    | d0 :: _ =>
      if respOrder.Status = .valid then
        match checkResponse env respOrder
            { Domain := d0, CertURL := respOrder.Certificate,
              PrivateKey := privateKeyPem } bundle preferredChain with
        | (_, .error e) => ([], none, some e)
        | (r, .ok true) => ([], some r, none)
        | (r, .ok false) => pollPhase env c order bundle preferredChain r
      else
        pollPhase env c order bundle preferredChain
          { Domain := d0, CertURL := respOrder.Certificate,
            PrivateKey := privateKeyPem }

/-- The CommonName computation of `getForOrder` (lines 304-307). -/
def computeCommonName (c : Certifier) (d0 : String) : String :=
  if d0.length ≤ 64 ∧ c.options.DisableCommonName = false then d0 else ""

/-- The SAN computation of `getForOrder` (lines 316-325): the CommonName
first when present, then every order identifier different from it. -/
def computeSAN (commonName : String) (identifiers : List String) : List String :=
  (if commonName = "" then [] else [commonName]) ++
    identifiers.filter (fun v => v ≠ commonName)

/-- The `certcrypto.CSROptions` assembled by `getForOrder` (lines 304-332)
from the first sanitized domain and the order identifiers. -/
def csrOptionsOf (c : Certifier) (d0 : String) (order : ExtendedOrder)
    (request : ObtainRequest) : CSROptions :=
  { Domain := computeCommonName c d0
    SAN := computeSAN (computeCommonName c d0) order.Identifiers
    MustStaple := request.MustStaple
    EmailAddresses := request.EmailAddresses }

/-- `getForOrder` (lines 293-340): obtain or generate the private key, build
the CSR options from `domains[0]` and the order identifiers, create the CSR
and delegate to `getForCSR`. -/
def getForOrder (env : Env) (c : Certifier) (domains : List String)
    (order : ExtendedOrder) (request : ObtainRequest) : RunResult :=
  match (match request.PrivateKey with
         | some k => Except.ok k
         | none => env.generatePrivateKey c.options.KeyType) with
  | .error e => ([], none, some e)
  | .ok privateKey =>
    match domains with
    | [] => ([], none, some .panicDomains0)
    | d0 :: _ =>
      match env.createCSR privateKey (csrOptionsOf c d0 order request) with
      | .error e => ([.csrCall (csrOptionsOf c d0 order request)], none, some e)
      | .ok csr =>
        match getForCSR env c domains order request.Bundle csr
            (env.pemEncodeKey privateKey) request.PreferredChain with
        | (tr, res) => (.csrCall (csrOptionsOf c d0 order request) :: tr, res)

/-- The `api.OrderOptions` built by `Obtain` (lines 172-177). -/
def obtainOrderOpts (request : ObtainRequest) : OrderOptions :=
  { NotBefore := request.NotBefore
    NotAfter := request.NotAfter
    Profile := request.Profile
    ReplacesCertID := request.ReplacesCertID }

/-- The `api.OrderOptions` built by `ObtainForCSR` (lines 239-244). -/
def csrOrderOpts (request : ObtainForCSRRequest) : OrderOptions :=
  { NotBefore := request.NotBefore
    NotAfter := request.NotAfter
    Profile := request.Profile
    ReplacesCertID := request.ReplacesCertID }

/-- `Obtain` (lines 159-213). -/
def Obtain (env : Env) (c : Certifier) (request : ObtainRequest) : RunResult :=
  if request.Domains = [] then ([], none, some .noDomains)
  else
    match env.newOrder (sanitizeDomain env request.Domains)
        (obtainOrderOpts request) with
    | .error e =>
      ([.newOrderCall (sanitizeDomain env request.Domains)], none, some e)
    | .ok order =>
      match env.getAuthorizations order with
      | .error e =>
        (.newOrderCall (sanitizeDomain env request.Domains) ::
          deactivateAuthorizations order request.AlwaysDeactivateAuthorizations,
          none, some e)
      | .ok authz =>
        match env.solve authz with
        | some e =>
          (.newOrderCall (sanitizeDomain env request.Domains) ::
            deactivateAuthorizations order request.AlwaysDeactivateAuthorizations,
            none, some e)
        | none =>
          match getForOrder env c (sanitizeDomain env request.Domains)
              order request with
          | (tr, res, errO) =>
            (.newOrderCall (sanitizeDomain env request.Domains) :: tr ++
              (if request.AlwaysDeactivateAuthorizations then
                deactivateAuthorizations order true
              else []),
              res,
              obtainErrorJoin
                (match errO with
                 | none => []
                 | some e => authz.map (fun auth => (getTargetedDomain auth, e))))

/-- `ObtainForCSR` (lines 224-291). -/
def ObtainForCSR (env : Env) (c : Certifier) (request : ObtainForCSRRequest) :
    RunResult :=
  match request.CSR with
  | none => ([], none, some .missingCSR)
  | some csrReq =>
    match env.newOrder (env.extractDomainsCSR csrReq) (csrOrderOpts request) with
    | .error e => ([.newOrderCall (env.extractDomainsCSR csrReq)], none, some e)
    | .ok order =>
      match env.getAuthorizations order with
      | .error e =>
        (.newOrderCall (env.extractDomainsCSR csrReq) ::
          deactivateAuthorizations order request.AlwaysDeactivateAuthorizations,
          none, some e)
      | .ok authz =>
        match env.solve authz with
        | some e =>
          (.newOrderCall (env.extractDomainsCSR csrReq) ::
            deactivateAuthorizations order request.AlwaysDeactivateAuthorizations,
            none, some e)
        | none =>
          match getForCSR env c (env.extractDomainsCSR csrReq) order
              request.Bundle csrReq.Raw
              (match request.PrivateKey with
               | some k => env.pemEncodeKey k
               | none => []) request.PreferredChain with
          | (tr, res, errO) =>
            (.newOrderCall (env.extractDomainsCSR csrReq) :: tr ++
              (if request.AlwaysDeactivateAuthorizations then
                deactivateAuthorizations order true
              else []),
              res.map (fun r => { r with CSR := env.pemEncodeCSR csrReq }),
              obtainErrorJoin
                (match errO with
                 | none => []
                 | some e => authz.map (fun auth => (getTargetedDomain auth, e))))

/-- `Get` (lines 666-690). -/
def Get (env : Env) (url : String) (bundle : Bool) : Except Err Resource :=
  match env.certificatesGet url bundle with
  | .error e => .error e
  | .ok (cert, issuer) =>
    match env.parsePEMBundle cert with
    | .error e => .error e
    | .ok x509Certs =>
      match x509Certs.head? with
      | none => .error .panicEmptyBundle
      | some leaf =>
        match env.getCertificateMainDomain leaf with
        | .error e => .error e
        | .ok domain =>
          .ok { Domain := domain
                Certificate := cert
                IssuerCertificate := issuer
                CertURL := url
                CertStableURL := url }

/-- `RenewWithOptions` (lines 512-578). -/
def RenewWithOptions (env : Env) (c : Certifier) (certRes : Resource)
    (options : Option RenewOptions) : RunResult :=
  match env.parsePEMBundle certRes.Certificate with
  | .error e => ([], none, some e)
  | .ok certificates =>
    match certificates.head? with
    | none => ([], none, some .panicEmptyBundle)
    | some x509Cert =>
      if x509Cert.IsCA then ([], none, some (.caCertificate certRes.Domain))
      else if 0 < certRes.CSR.length then
        match env.pemDecodeCSR certRes.CSR with
        | .error e => ([], none, some e)
        | .ok csr =>
          let base : ObtainForCSRRequest := { CSR := some csr }
          let request :=
            match options with
            | none => base
            | some o =>
              { base with
                  NotBefore := o.NotBefore
                  NotAfter := o.NotAfter
                  Bundle := o.Bundle
                  PreferredChain := o.PreferredChain
                  Profile := o.Profile
                  AlwaysDeactivateAuthorizations := o.AlwaysDeactivateAuthorizations }
          ObtainForCSR env c request
      else
        let keyResult : Except Err (Option PrivateKey) :=
          if certRes.PrivateKey = [] then .ok none
          else
            match env.parsePEMPrivateKey certRes.PrivateKey with
            | .error e => .error e
            | .ok k => .ok (some k)
        match keyResult with
        | .error e => ([], none, some e)
        | .ok keyOpt =>
          let base : ObtainRequest :=
            { Domains := env.extractDomains x509Cert, PrivateKey := keyOpt }
          let request :=
            match options with
            | none => base
            | some o =>
              { base with
                  MustStaple := o.MustStaple
                  NotBefore := o.NotBefore
                  NotAfter := o.NotAfter
                  Bundle := o.Bundle
                  PreferredChain := o.PreferredChain
                  EmailAddresses := o.EmailAddresses
                  Profile := o.Profile
                  AlwaysDeactivateAuthorizations := o.AlwaysDeactivateAuthorizations }
          Obtain env c request

/-- `Renew` (lines 494-500), the deprecated wrapper. -/
def Renew (env : Env) (c : Certifier) (certRes : Resource)
    (bundle mustStaple : Bool) (preferredChain : String) : RunResult :=
  RenewWithOptions env c certRes
    (some { Bundle := bundle, PreferredChain := preferredChain, MustStaple := mustStaple })

/-- Classification of the errors that can only arise inside the
preferred-chain inspection (`hasPreferredChain`): a PEM-bundle parse failure
or the out-of-bounds access on an empty parse result. -/
def isChainParseErr : Err → Bool
  | .parsePEM _ => true
  | .panicEmptyBundle => true
  | _ => false

/-- Sanity condition on an environment: `certcrypto.ParsePEMBundle` failures
are reported as parse errors (true of the real collaborator). -/
def ParseErrsTagged (env : Env) : Prop :=
  ∀ b e, env.parsePEMBundle b = .error e → isChainParseErr e = true

/-- An error value that does not carry the marker `Err.panicDomains0` — the
marker the embedding reserves for the code's own `domains[0]` accesses —
either directly or one aggregation level down. -/
def NoPanicErr (e : Err) : Prop :=
  e ≠ .panicDomains0 ∧
    ∀ pairs, e = .aggregate pairs → ∀ q ∈ pairs, q.2 ≠ .panicDomains0

/-- Sanity condition on an environment: none of the external collaborators
reachable from `Obtain` fabricates the marker `Err.panicDomains0`. -/
structure EnvNoPanic (env : Env) : Prop where
  newOrder : ∀ d o e, env.newOrder d o = .error e → NoPanicErr e
  getAuthorizations : ∀ o e, env.getAuthorizations o = .error e → NoPanicErr e
  solve : ∀ a e, env.solve a = some e → NoPanicErr e
  generatePrivateKey : ∀ k e, env.generatePrivateKey k = .error e → NoPanicErr e
  createCSR : ∀ k o e, env.createCSR k o = .error e → NoPanicErr e
  updateForCSR : ∀ u b e, env.updateForCSR u b = .error e → NoPanicErr e
  ordersGet : ∀ s u e, env.ordersGet s u = .error e → NoPanicErr e
  getAll : ∀ u b e, env.getAll u b = .error e → NoPanicErr e
  parsePEMBundle : ∀ b e, env.parsePEMBundle b = .error e → NoPanicErr e

/-! ### Concrete environments used for witnesses, counterexamples and the
end-to-end poll scenarios -/

/-- The order returned by the benign environment's CA. -/
def ordU : ExtendedOrder :=
  { Identifiers := ["example.com"], Authorizations := ["authzU"],
    Finalize := "finU", Location := "locU" }

/-- A benign environment: every collaborator succeeds, the CA answers
`pending` forever. -/
def envBase : Env where
  toASCII := fun d => .ok d
  newOrder := fun _ _ => .ok ordU
  getAuthorizations := fun _ => .ok [{ Domain := "example.com" }]
  solve := fun _ => none
  generatePrivateKey := fun _ => .ok 0
  createCSR := fun _ _ => .ok [7]
  pemEncodeKey := fun _ => [9]
  pemEncodeCSR := fun _ => [8]
  extractDomainsCSR := fun r => r.Domains
  updateForCSR := fun _ _ => .ok { Status := .pending }
  ordersGet := fun _ _ => .ok { Status := .pending }
  getAll := fun url _ => .ok [(url, { Cert := [1], Issuer := [2] })]
  parsePEMBundle := fun _ => .ok [{ IssuerCommonName := "DefaultCA" }]
  pemDecodeCSR := fun _ => .ok {}
  parsePEMPrivateKey := fun _ => .ok 1
  extractDomains := fun cert => cert.DNSNames
  certificatesGet := fun _ _ => .ok ([3], [4])
  getCertificateMainDomain := fun cert => .ok cert.SubjectCommonName

/-- A certifier whose poll timeout is 60 time-units, so that the sampling
interval is one unit and the poll budget is 60 samples. -/
def cert60 : Certifier := { options := { Timeout := 60 } }

/-- CA behaviour `pending, pending, valid`. -/
def envPollValid : Env :=
  { envBase with
      ordersGet := fun step _ =>
        if step < 2 then .ok { Status := .pending }
        else .ok { Status := .valid, Certificate := "certU" } }

/-- CA behaviour `pending, invalid`. -/
def envPollInvalid : Env :=
  { envBase with
      ordersGet := fun step _ =>
        if step = 0 then .ok { Status := .pending }
        else .ok { Status := .invalid, ProblemDetail := "acme: problem" } }

/-- Candidate chains offered for one logical certificate: the default entry
keyed by the order certificate URL `"cu"` (top issuer `"DefaultCA"`) and an
alternative entry `"alt"` (top issuer `"PrefCA"`). -/
def chainCerts : List (String × ChainEntry) :=
  [("cu", { Cert := [1], Issuer := [2] }), ("alt", { Cert := [10], Issuer := [20] })]

/-- Environment offering the two candidate chains of `chainCerts`. -/
def envChain : Env :=
  { envBase with
      getAll := fun _ _ => .ok chainCerts
      parsePEMBundle := fun b =>
        if b = [20] then .ok [{ IssuerCommonName := "PrefCA" }]
        else .ok [{ IssuerCommonName := "DefaultCA" }] }

/-- Environment whose challenge solver fails. -/
def envSolveFail : Env :=
  { envBase with solve := fun _ => some (.api "solve failed") }

/-- Environment in which no domain converts to ASCII. -/
def envNoSan : Env :=
  { envBase with toASCII := fun _ => .error "no ascii" }

/-- Environment for the chain-selection failure run: the order finalizes into
`processing`, the first poll finds it `valid`, the chain map is served, but
the issuer bundle of every candidate fails to parse. -/
def envC2 : Env :=
  { envBase with
      updateForCSR := fun _ _ => .ok { Status := .processing }
      ordersGet := fun _ _ => .ok { Status := .valid, Certificate := "cu" }
      parsePEMBundle := fun _ => .error (.parsePEM "bad") }

/-- CSR-mode request with a preferred chain, used with `envC2`. -/
def reqC2 : ObtainForCSRRequest :=
  { CSR := some { Raw := [5], Domains := ["d"] }, PreferredChain := "X" }

/-- The chain-related fields of a resource describe exactly the candidate
that `checkResponse` selected from the chain map `certs` fetched for the
final order `ord`: both URL fields carry the selected chain's URL, and the
certificate and issuer bytes are that chain's entry — either a
preferred-chain candidate stored verbatim from the map, or the default entry
keyed by the order's certificate URL. -/
def SelectedChain (certs : List (String × ChainEntry)) (ord : ExtendedOrder)
    (r : Resource) : Prop :=
  r.CertStableURL = r.CertURL ∧
  ((r.CertURL, ChainEntry.mk r.Certificate r.IssuerCertificate) ∈ certs ∨
    (r.CertURL = ord.Certificate ∧
      lookupCert certs ord.Certificate =
        ChainEntry.mk r.Certificate r.IssuerCertificate))

/-! ### Helper lemmas -/

theorem count_filter_cn_zero (cn : String) (l : List String) :
    (l.filter (fun v => v ≠ cn)).count cn = 0 := by
  apply List.count_eq_zero_of_not_mem
  intro hc
  have h2 := (List.mem_filter.mp hc).2
  simp at h2

theorem count_filter_ne_cn (cn d : String) (l : List String) (hdcn : d ≠ cn) :
    (l.filter (fun v => v ≠ cn)).count d = l.count d :=
  List.count_filter (by simp [hdcn])

theorem computeSAN_count_mem (cn d : String) (identifiers : List String)
    (hmem : d ∈ identifiers) (hnodup : identifiers.Nodup) (hne : d ≠ "") :
    (computeSAN cn identifiers).count d = 1 := by
  unfold computeSAN
  have hcount1 : identifiers.count d = 1 := List.count_eq_one_of_mem hnodup hmem
  by_cases hdcn : d = cn
  · subst hdcn
    rw [if_neg hne, List.singleton_append, List.count_cons,
      count_filter_cn_zero d identifiers]
    simp
  · by_cases hcn : cn = ""
    · rw [if_pos hcn, List.nil_append, count_filter_ne_cn cn d identifiers hdcn,
        hcount1]
    · rw [if_neg hcn, List.singleton_append, List.count_cons,
        count_filter_ne_cn cn d identifiers hdcn, hcount1]
      simp [Ne.symm hdcn]

theorem computeSAN_count_cn (cn : String) (identifiers : List String) :
    (computeSAN cn identifiers).count cn ≤ 1 := by
  unfold computeSAN
  by_cases hcn : cn = ""
  · rw [if_pos hcn, List.nil_append, count_filter_cn_zero cn identifiers]
    omega
  · rw [if_neg hcn, List.singleton_append, List.count_cons,
      count_filter_cn_zero cn identifiers]
    simp

theorem computeSAN_mem (cn d : String) (identifiers : List String)
    (hmem : d ∈ identifiers) (hne : d ≠ cn) : d ∈ computeSAN cn identifiers := by
  unfold computeSAN
  have : d ∈ identifiers.filter (fun v => v ≠ cn) :=
    List.mem_filter.mpr ⟨hmem, by simpa using hne⟩
  exact List.mem_append.mpr (Or.inr this)

theorem hasPreferredChain_error_chain (env : Env) (issuer : Bytes) (p : String)
    (henv : ParseErrsTagged env) (e : Err)
    (h : hasPreferredChain env issuer p = .error e) : isChainParseErr e = true := by
  unfold hasPreferredChain at h
  split at h
  next e2 hp =>
    injection h with h2
    exact h2 ▸ henv issuer e2 hp
  next certs hp =>
    split at h
    next hl =>
      injection h with h2
      exact h2 ▸ rfl
    next top hl => simp at h

theorem findPreferred_not_false (env : Env) (p : String) :
    ∀ (l : List (String × ChainEntry)) (r r2 : Resource),
      findPreferred env p l r ≠ (r2, Except.ok false) := by
  intro l
  induction l with
  | nil =>
    intro r r2 h
    simp [findPreferred] at h
  | cons hd tl ih =>
    intro r r2 h
    obtain ⟨link, cert⟩ := hd
    unfold findPreferred at h
    cases hh : hasPreferredChain env cert.Issuer p with
    | error e => rw [hh] at h; simp at h
    | ok bv =>
      rw [hh] at h
      cases bv with
      | true => simp at h
      | false => exact ih r r2 h

theorem findPreferred_true_urls (env : Env) (p : String) :
    ∀ (l : List (String × ChainEntry)) (r r2 : Resource),
      r.CertStableURL = r.CertURL →
      findPreferred env p l r = (r2, .ok true) →
      r2.CertStableURL = r2.CertURL := by
  intro l
  induction l with
  | nil =>
    intro r r2 hr h
    simp only [findPreferred, Prod.mk.injEq] at h
    rw [← h.1]
    exact hr
  | cons hd tl ih =>
    intro r r2 hr h
    obtain ⟨link, cert⟩ := hd
    unfold findPreferred at h
    cases hh : hasPreferredChain env cert.Issuer p with
    | error e => rw [hh] at h; simp at h
    | ok bv =>
      rw [hh] at h
      cases bv with
      | true =>
        simp only [Prod.mk.injEq] at h
        rw [← h.1]
      | false => exact ih r r2 hr h

theorem findPreferred_error_chain (env : Env) (p : String)
    (henv : ParseErrsTagged env) :
    ∀ (l : List (String × ChainEntry)) (r r2 : Resource) (e : Err),
      findPreferred env p l r = (r2, .error e) → isChainParseErr e = true := by
  intro l
  induction l with
  | nil =>
    intro r r2 e h
    simp [findPreferred] at h
  | cons hd tl ih =>
    intro r r2 e h
    obtain ⟨link, cert⟩ := hd
    unfold findPreferred at h
    cases hh : hasPreferredChain env cert.Issuer p with
    | error e2 =>
      rw [hh] at h
      simp only [Prod.mk.injEq, Except.error.injEq] at h
      exact h.2 ▸ hasPreferredChain_error_chain env cert.Issuer p henv e2 hh
    | ok bv =>
      rw [hh] at h
      cases bv with
      | true => simp at h
      | false => exact ih r r2 e h

theorem checkResponse_ok_false (env : Env) (o : ExtendedOrder) (r r2 : Resource)
    (b : Bool) (p : String)
    (h : checkResponse env o r b p = (r2, .ok false)) : r2 = r := by
  unfold checkResponse at h
  split at h
  · simp at h
  · simp only [Prod.mk.injEq] at h
    exact h.1.symm
  · split at h
    · simp at h
    next certs hg =>
      split at h
      · simp at h
      · exact absurd h (findPreferred_not_false env p certs _ r2)

theorem checkResponse_ok_true_urls (env : Env) (o : ExtendedOrder)
    (r r2 : Resource) (b : Bool) (p : String)
    (h : checkResponse env o r b p = (r2, .ok true)) :
    r2.CertStableURL = r2.CertURL := by
  unfold checkResponse at h
  split at h
  · simp at h
  · simp at h
  · split at h
    · simp at h
    next certs hg =>
      split at h
      · simp only [Prod.mk.injEq] at h
        rw [← h.1]
      · exact findPreferred_true_urls env p certs _ r2 rfl h

theorem checkResponse_error_unchanged (env : Env) (o : ExtendedOrder)
    (r r2 : Resource) (b : Bool) (p : String) (e : Err)
    (henv : ParseErrsTagged env)
    (h : checkResponse env o r b p = (r2, .error e))
    (hne : isChainParseErr e = false) : r2 = r := by
  unfold checkResponse at h
  split at h
  · simp only [Prod.mk.injEq] at h
    exact h.1.symm
  · simp at h
  · split at h
    · simp only [Prod.mk.injEq] at h
      exact h.1.symm
    next certs hg =>
      split at h
      · simp at h
      · have := findPreferred_error_chain env p henv certs _ r2 e h
        rw [this] at hne
        cases hne

theorem pollOnce_ok_true_urls (env : Env) (o : ExtendedOrder) (b : Bool)
    (p : String) (step : Nat) (r rc : Resource)
    (h : pollOnce env o b p step r = (rc, .ok true)) :
    rc.CertStableURL = rc.CertURL := by
  unfold pollOnce at h
  split at h
  · simp at h
  next ord hg => exact checkResponse_ok_true_urls env ord r rc b p h

theorem pollOnce_ok_false (env : Env) (o : ExtendedOrder) (b : Bool)
    (p : String) (step : Nat) (r rc : Resource)
    (h : pollOnce env o b p step r = (rc, .ok false)) : rc = r := by
  unfold pollOnce at h
  split at h
  · simp at h
  next ord hg => exact checkResponse_ok_false env ord r rc b p h

theorem pollOnce_error_unchanged (env : Env) (o : ExtendedOrder) (b : Bool)
    (p : String) (henv : ParseErrsTagged env) (step : Nat) (r rc : Resource)
    (e : Err) (h : pollOnce env o b p step r = (rc, .error e))
    (hne : isChainParseErr e = false) : rc = r := by
  unfold pollOnce at h
  split at h
  · simp only [Prod.mk.injEq] at h
    exact h.1.symm
  next ord hg => exact checkResponse_error_unchanged env ord r rc b p e henv h hne

theorem waitForAux_ok_urls (env : Env) (o : ExtendedOrder) (b : Bool)
    (p : String) :
    ∀ (fuel step : Nat) (r r2 : Resource),
      waitForAux env o b p fuel step r = (r2, none) →
      r2.CertStableURL = r2.CertURL := by
  intro fuel
  induction fuel with
  | zero =>
    intro step r r2 h
    simp [waitForAux] at h
  | succ n ih =>
    intro step r r2 h
    unfold waitForAux at h
    rcases hpo : pollOnce env o b p step r with ⟨rc, res⟩
    rw [hpo] at h
    cases res with
    | error e => simp at h
    | ok done =>
      cases done with
      | true =>
        simp only [Prod.mk.injEq] at h
        exact h.1 ▸ pollOnce_ok_true_urls env o b p step r rc hpo
      | false => exact ih (step + 1) rc r2 h

theorem waitForAux_error_unchanged (env : Env) (o : ExtendedOrder) (b : Bool)
    (p : String) (henv : ParseErrsTagged env) :
    ∀ (fuel step : Nat) (r r2 : Resource) (e : Err),
      waitForAux env o b p fuel step r = (r2, some e) →
      isChainParseErr e = false → r2 = r := by
  intro fuel
  induction fuel with
  | zero =>
    intro step r r2 e h _
    simp only [waitForAux, Prod.mk.injEq] at h
    exact h.1.symm
  | succ n ih =>
    intro step r r2 e h hne
    unfold waitForAux at h
    rcases hpo : pollOnce env o b p step r with ⟨rc, res⟩
    rw [hpo] at h
    cases res with
    | error e2 =>
      simp only [Prod.mk.injEq, Option.some.injEq] at h
      rw [← h.1]
      exact pollOnce_error_unchanged env o b p henv step r rc e2 hpo (h.2 ▸ hne)
    | ok done =>
      cases done with
      | true => simp at h
      | false =>
        have hrc : rc = r := pollOnce_ok_false env o b p step r rc hpo
        exact hrc ▸ ih (step + 1) rc r2 e h hne

theorem findPreferred_skips (env : Env) (pref : String) :
    ∀ (pre rest : List (String × ChainEntry)) (r : Resource),
      (∀ q ∈ pre, hasPreferredChain env q.2.Issuer pref = .ok false) →
      findPreferred env pref (pre ++ rest) r = findPreferred env pref rest r := by
  intro pre
  induction pre with
  | nil => intro rest r _; rfl
  | cons hd tl ih =>
    intro rest r hall
    obtain ⟨link, cert⟩ := hd
    have hhd := hall (link, cert) (List.mem_cons_self _ _)
    rw [List.cons_append]
    simp only [findPreferred, hhd]
    exact ih rest r (fun q hq => hall q (List.mem_cons_of_mem _ hq))

theorem findPreferred_no_match (env : Env) (pref : String) :
    ∀ (l : List (String × ChainEntry)) (r : Resource),
      (∀ q ∈ l, hasPreferredChain env q.2.Issuer pref = .ok false) →
      findPreferred env pref l r = (r, .ok true) := by
  intro l
  induction l with
  | nil => intro r _; rfl
  | cons hd tl ih =>
    intro r hall
    obtain ⟨link, cert⟩ := hd
    have hhd := hall (link, cert) (List.mem_cons_self _ _)
    simp only [findPreferred, hhd]
    exact ih r (fun q hq => hall q (List.mem_cons_of_mem _ hq))

theorem pollPhase_ok_urls (env : Env) (c : Certifier) (order : ExtendedOrder)
    (b : Bool) (p : String) (r0 : Resource) (tr : List Effect) (r : Resource)
    (h : pollPhase env c order b p r0 = (tr, some r, none)) :
    r.CertStableURL = r.CertURL := by
  unfold pollPhase waitFor at h
  rcases hw : waitForAux env order b p
      ((pollTimeout c / (pollTimeout c / 60)).toNat) 0 r0 with ⟨rF, eF⟩
  rw [hw] at h
  simp only [Prod.mk.injEq, Option.some.injEq] at h
  exact h.2.1 ▸ waitForAux_ok_urls env order b p _ 0 r0 rF (by rw [hw, h.2.2])

theorem pollPhase_error_res (env : Env) (c : Certifier) (order : ExtendedOrder)
    (b : Bool) (p : String) (henv : ParseErrsTagged env) (r0 : Resource)
    (tr : List Effect) (res : Option Resource) (e : Err)
    (h : pollPhase env c order b p r0 = (tr, res, some e))
    (hne : isChainParseErr e = false) : res = some r0 := by
  unfold pollPhase waitFor at h
  rcases hw : waitForAux env order b p
      ((pollTimeout c / (pollTimeout c / 60)).toNat) 0 r0 with ⟨rF, eF⟩
  rw [hw] at h
  simp only [Prod.mk.injEq] at h
  have hrF : rF = r0 := by
    apply waitForAux_error_unchanged env order b p henv _ 0 r0 rF e
    · rw [hw, h.2.2]
    · exact hne
  rw [← h.2.1, hrF]

theorem getForCSR_ok_urls (env : Env) (c : Certifier) (domains : List String)
    (order : ExtendedOrder) (b : Bool) (csr pk : Bytes) (p : String)
    (tr : List Effect) (r : Resource)
    (h : getForCSR env c domains order b csr pk p = (tr, some r, none)) :
    r.CertStableURL = r.CertURL := by
  unfold getForCSR at h
  split at h
  · simp at h
  next respOrder hu =>
    split at h
    · simp at h
    next d0 rest =>
      split at h
      · split at h
        next hc => simp at h
        next rr hc =>
          simp only [Prod.mk.injEq, Option.some.injEq] at h
          exact h.2.1 ▸ checkResponse_ok_true_urls env respOrder _ rr b p hc
        next rr hc => exact pollPhase_ok_urls env c order b p rr tr r h
      · exact pollPhase_ok_urls env c order b p _ tr r h

theorem getForOrder_ok_urls (env : Env) (c : Certifier) (domains : List String)
    (order : ExtendedOrder) (request : ObtainRequest) (tr : List Effect)
    (r : Resource)
    (h : getForOrder env c domains order request = (tr, some r, none)) :
    r.CertStableURL = r.CertURL := by
  unfold getForOrder at h
  split at h
  · simp at h
  next k hk =>
    split at h
    · simp at h
    next d0 rest =>
      split at h
      · simp at h
      next csr hc =>
        rcases hg : getForCSR env c (d0 :: rest) order request.Bundle csr
            (env.pemEncodeKey k) request.PreferredChain with ⟨tr2, res2, errO⟩
        rw [hg] at h
        simp only [Prod.mk.injEq] at h
        exact getForCSR_ok_urls env c (d0 :: rest) order request.Bundle csr
          (env.pemEncodeKey k) request.PreferredChain tr2 r
          (by rw [hg, h.2.1, h.2.2])

theorem findPreferred_true_selected (env : Env) (p : String)
    (certs : List (String × ChainEntry)) (ord : ExtendedOrder) :
    ∀ (l : List (String × ChainEntry)) (r r2 : Resource),
      (∀ q ∈ l, q ∈ certs) →
      SelectedChain certs ord r →
      findPreferred env p l r = (r2, .ok true) →
      SelectedChain certs ord r2 := by
  intro l
  induction l with
  | nil =>
    intro r r2 _ hr h
    simp only [findPreferred, Prod.mk.injEq] at h
    rw [← h.1]
    exact hr
  | cons hd tl ih =>
    intro r r2 hsub hr h
    obtain ⟨link, cert⟩ := hd
    unfold findPreferred at h
    cases hh : hasPreferredChain env cert.Issuer p with
    | error e => rw [hh] at h; simp at h
    | ok bv =>
      rw [hh] at h
      cases bv with
      | true =>
        simp only [Prod.mk.injEq] at h
        rw [← h.1]
        exact ⟨rfl, Or.inl (hsub (link, cert) (List.mem_cons_self _ _))⟩
      | false =>
        exact ih r r2 (fun q hq => hsub q (List.mem_cons_of_mem _ hq)) hr h

theorem checkResponse_ok_true_selected (env : Env) (ord : ExtendedOrder)
    (r r2 : Resource) (b : Bool) (p : String)
    (h : checkResponse env ord r b p = (r2, .ok true)) :
    ∃ certs, env.getAll ord.Certificate b = .ok certs ∧
      SelectedChain certs ord r2 := by
  unfold checkResponse at h
  split at h
  · simp at h
  · simp at h
  · split at h
    · simp at h
    next certs hg =>
      refine ⟨certs, hg, ?_⟩
      split at h
      · simp only [Prod.mk.injEq] at h
        rw [← h.1]
        exact ⟨rfl, Or.inr ⟨rfl, rfl⟩⟩
      · exact findPreferred_true_selected env p certs ord certs _ r2
          (fun q hq => hq) ⟨rfl, Or.inr ⟨rfl, rfl⟩⟩ h

theorem pollOnce_ok_true_selected (env : Env) (o : ExtendedOrder) (b : Bool)
    (p : String) (step : Nat) (r rc : Resource)
    (h : pollOnce env o b p step r = (rc, .ok true)) :
    ∃ ord certs, env.getAll ord.Certificate b = .ok certs ∧
      SelectedChain certs ord rc := by
  unfold pollOnce at h
  split at h
  · simp at h
  next ord hg =>
    obtain ⟨certs, hcerts, hsel⟩ :=
      checkResponse_ok_true_selected env ord r rc b p h
    exact ⟨ord, certs, hcerts, hsel⟩

theorem waitForAux_ok_selected (env : Env) (o : ExtendedOrder) (b : Bool)
    (p : String) :
    ∀ (fuel step : Nat) (r r2 : Resource),
      waitForAux env o b p fuel step r = (r2, none) →
      ∃ ord certs, env.getAll ord.Certificate b = .ok certs ∧
        SelectedChain certs ord r2 := by
  intro fuel
  induction fuel with
  | zero =>
    intro step r r2 h
    simp [waitForAux] at h
  | succ n ih =>
    intro step r r2 h
    unfold waitForAux at h
    rcases hpo : pollOnce env o b p step r with ⟨rc, res⟩
    rw [hpo] at h
    cases res with
    | error e => simp at h
    | ok done =>
      cases done with
      | true =>
        simp only [Prod.mk.injEq] at h
        exact h.1 ▸ pollOnce_ok_true_selected env o b p step r rc hpo
      | false => exact ih (step + 1) rc r2 h

theorem pollPhase_ok_selected (env : Env) (c : Certifier)
    (order : ExtendedOrder) (b : Bool) (p : String) (r0 : Resource)
    (tr : List Effect) (r : Resource)
    (h : pollPhase env c order b p r0 = (tr, some r, none)) :
    ∃ ord certs, env.getAll ord.Certificate b = .ok certs ∧
      SelectedChain certs ord r := by
  unfold pollPhase waitFor at h
  rcases hw : waitForAux env order b p
      ((pollTimeout c / (pollTimeout c / 60)).toNat) 0 r0 with ⟨rF, eF⟩
  rw [hw] at h
  simp only [Prod.mk.injEq, Option.some.injEq] at h
  exact h.2.1 ▸ waitForAux_ok_selected env order b p _ 0 r0 rF
    (by rw [hw, h.2.2])

theorem getForCSR_ok_selected (env : Env) (c : Certifier)
    (domains : List String) (order : ExtendedOrder) (b : Bool)
    (csr pk : Bytes) (p : String) (tr : List Effect) (r : Resource)
    (h : getForCSR env c domains order b csr pk p = (tr, some r, none)) :
    ∃ ord certs, env.getAll ord.Certificate b = .ok certs ∧
      SelectedChain certs ord r := by
  unfold getForCSR at h
  split at h
  · simp at h
  next respOrder hu =>
    split at h
    · simp at h
    next d0 rest =>
      split at h
      · split at h
        next hc => simp at h
        next rr hc =>
          simp only [Prod.mk.injEq, Option.some.injEq] at h
          obtain ⟨certs, hcerts, hsel⟩ :=
            checkResponse_ok_true_selected env respOrder _ rr b p hc
          exact ⟨respOrder, certs, hcerts, h.2.1 ▸ hsel⟩
        next rr hc => exact pollPhase_ok_selected env c order b p rr tr r h
      · exact pollPhase_ok_selected env c order b p _ tr r h

theorem getForOrder_ok_selected (env : Env) (c : Certifier)
    (domains : List String) (order : ExtendedOrder) (request : ObtainRequest)
    (tr : List Effect) (r : Resource)
    (h : getForOrder env c domains order request = (tr, some r, none)) :
    ∃ ord certs, env.getAll ord.Certificate request.Bundle = .ok certs ∧
      SelectedChain certs ord r := by
  unfold getForOrder at h
  split at h
  · simp at h
  next k hk =>
    split at h
    · simp at h
    next d0 rest =>
      split at h
      · simp at h
      next csr hc =>
        rcases hg : getForCSR env c (d0 :: rest) order request.Bundle csr
            (env.pemEncodeKey k) request.PreferredChain with ⟨tr2, res2, errO⟩
        rw [hg] at h
        simp only [Prod.mk.injEq] at h
        exact getForCSR_ok_selected env c (d0 :: rest) order request.Bundle csr
          (env.pemEncodeKey k) request.PreferredChain tr2 r
          (by rw [hg, h.2.1, h.2.2])

theorem obtainErrorJoin_eq_none (pairs : List (String × Err))
    (h : obtainErrorJoin pairs = none) : pairs = [] := by
  cases pairs with
  | nil => rfl
  | cons hd tl => simp [obtainErrorJoin] at h

theorem noPanicErr_of_shape (e : Err) (h1 : e ≠ .panicDomains0)
    (h2 : ∀ pairs, e ≠ .aggregate pairs) : NoPanicErr e :=
  ⟨h1, fun pairs hp => absurd hp (h2 pairs)⟩

theorem checkOrderStatus_error_shape (o : ExtendedOrder) (bv : Bool) (e : Err)
    (h : checkOrderStatus o = (bv, some e)) :
    e = .invalidOrder o.ProblemDetail := by
  unfold checkOrderStatus at h
  split at h <;> simp_all

theorem hasPreferredChain_error_noPanic (env : Env) (issuer : Bytes)
    (p : String) (hnp : EnvNoPanic env) (e : Err)
    (h : hasPreferredChain env issuer p = .error e) : NoPanicErr e := by
  unfold hasPreferredChain at h
  split at h
  next e2 hp =>
    injection h with h2
    exact h2 ▸ hnp.parsePEMBundle _ _ hp
  next certs hp =>
    split at h
    next hl =>
      injection h with h2
      subst h2
      exact noPanicErr_of_shape _ (by simp) (fun pairs => by simp)
    next top hl => simp at h

theorem findPreferred_error_noPanic (env : Env) (p : String)
    (hnp : EnvNoPanic env) :
    ∀ (l : List (String × ChainEntry)) (r r2 : Resource) (e : Err),
      findPreferred env p l r = (r2, .error e) → NoPanicErr e := by
  intro l
  induction l with
  | nil =>
    intro r r2 e h
    simp [findPreferred] at h
  | cons hd tl ih =>
    intro r r2 e h
    obtain ⟨link, cert⟩ := hd
    unfold findPreferred at h
    cases hh : hasPreferredChain env cert.Issuer p with
    | error e2 =>
      rw [hh] at h
      simp only [Prod.mk.injEq, Except.error.injEq] at h
      exact h.2 ▸ hasPreferredChain_error_noPanic env cert.Issuer p hnp e2 hh
    | ok bv =>
      rw [hh] at h
      cases bv with
      | true => simp at h
      | false => exact ih r r2 e h

theorem checkResponse_error_noPanic (env : Env) (o : ExtendedOrder)
    (r r2 : Resource) (b : Bool) (p : String) (e : Err) (hnp : EnvNoPanic env)
    (h : checkResponse env o r b p = (r2, .error e)) : NoPanicErr e := by
  unfold checkResponse at h
  split at h
  next bv e2 hs =>
    simp only [Prod.mk.injEq, Except.error.injEq] at h
    have := checkOrderStatus_error_shape o bv e2 hs
    rw [← h.2, this]
    exact noPanicErr_of_shape _ (by simp) (fun pairs => by simp)
  · simp at h
  · split at h
    next e2 hg =>
      simp only [Prod.mk.injEq, Except.error.injEq] at h
      exact h.2 ▸ hnp.getAll _ _ _ hg
    next certs hg =>
      split at h
      · simp at h
      · exact findPreferred_error_noPanic env p hnp certs _ r2 e h

theorem pollOnce_error_noPanic (env : Env) (o : ExtendedOrder) (b : Bool)
    (p : String) (hnp : EnvNoPanic env) (step : Nat) (r rc : Resource)
    (e : Err) (h : pollOnce env o b p step r = (rc, .error e)) : NoPanicErr e := by
  unfold pollOnce at h
  split at h
  next e2 hg =>
    simp only [Prod.mk.injEq, Except.error.injEq] at h
    exact h.2 ▸ hnp.ordersGet _ _ _ hg
  next ord hg => exact checkResponse_error_noPanic env ord r rc b p e hnp h

theorem waitForAux_error_noPanic (env : Env) (o : ExtendedOrder) (b : Bool)
    (p : String) (hnp : EnvNoPanic env) :
    ∀ (fuel step : Nat) (r r2 : Resource) (e : Err),
      waitForAux env o b p fuel step r = (r2, some e) → NoPanicErr e := by
  intro fuel
  induction fuel with
  | zero =>
    intro step r r2 e h
    simp only [waitForAux, Prod.mk.injEq, Option.some.injEq] at h
    rw [← h.2]
    exact noPanicErr_of_shape _ (by simp) (fun pairs => by simp)
  | succ n ih =>
    intro step r r2 e h
    unfold waitForAux at h
    rcases hpo : pollOnce env o b p step r with ⟨rc, res⟩
    rw [hpo] at h
    cases res with
    | error e2 =>
      simp only [Prod.mk.injEq, Option.some.injEq] at h
      exact h.2 ▸ pollOnce_error_noPanic env o b p hnp step r rc e2 hpo
    | ok done =>
      cases done with
      | true => simp at h
      | false => exact ih (step + 1) rc r2 e h

theorem pollPhase_error_noPanic (env : Env) (c : Certifier)
    (order : ExtendedOrder) (b : Bool) (p : String) (hnp : EnvNoPanic env)
    (r0 : Resource) (tr : List Effect) (res : Option Resource) (e : Err)
    (h : pollPhase env c order b p r0 = (tr, res, some e)) : NoPanicErr e := by
  unfold pollPhase waitFor at h
  rcases hw : waitForAux env order b p
      ((pollTimeout c / (pollTimeout c / 60)).toNat) 0 r0 with ⟨rF, eF⟩
  rw [hw] at h
  simp only [Prod.mk.injEq] at h
  exact waitForAux_error_noPanic env order b p hnp _ 0 r0 rF e
    (by rw [hw, h.2.2])

theorem getForCSR_error_noPanic (env : Env) (c : Certifier)
    (domains : List String) (order : ExtendedOrder) (b : Bool)
    (csr pk : Bytes) (p : String) (hnp : EnvNoPanic env)
    (hne : domains ≠ []) (tr : List Effect) (res : Option Resource) (e : Err)
    (h : getForCSR env c domains order b csr pk p = (tr, res, some e)) :
    NoPanicErr e := by
  unfold getForCSR at h
  split at h
  next e2 hu =>
    simp only [Prod.mk.injEq, Option.some.injEq] at h
    exact h.2.2 ▸ hnp.updateForCSR _ _ _ hu
  next respOrder hu =>
    split at h
    · exact absurd rfl hne
    next d0 rest =>
      split at h
      · split at h
        next e2 hcr =>
          simp only [Prod.mk.injEq, Option.some.injEq] at h
          exact h.2.2 ▸ checkResponse_error_noPanic env respOrder _ _ b p e2 hnp hcr
        next rr hcr => simp at h
        next rr hcr => exact pollPhase_error_noPanic env c order b p hnp rr tr res e h
      · exact pollPhase_error_noPanic env c order b p hnp _ tr res e h

theorem getForOrder_error_noPanic (env : Env) (c : Certifier)
    (domains : List String) (order : ExtendedOrder) (request : ObtainRequest)
    (hnp : EnvNoPanic env) (hne : domains ≠ []) (tr : List Effect)
    (res : Option Resource) (e : Err)
    (h : getForOrder env c domains order request = (tr, res, some e)) :
    NoPanicErr e := by
  unfold getForOrder at h
  split at h
  next e2 hk =>
    simp only [Prod.mk.injEq, Option.some.injEq] at h
    split at hk
    · exact absurd hk (by simp)
    · exact h.2.2 ▸ hnp.generatePrivateKey _ _ hk
  next k hk =>
    split at h
    · exact absurd rfl hne
    next d0 rest =>
      split at h
      next e2 hc =>
        simp only [Prod.mk.injEq, Option.some.injEq] at h
        exact h.2.2 ▸ hnp.createCSR _ _ _ hc
      next csr hc =>
        rcases hg : getForCSR env c (d0 :: rest) order request.Bundle csr
            (env.pemEncodeKey k) request.PreferredChain with ⟨tr2, res2, errO⟩
        rw [hg] at h
        simp only [Prod.mk.injEq] at h
        exact getForCSR_error_noPanic env c (d0 :: rest) order request.Bundle csr
          (env.pemEncodeKey k) request.PreferredChain hnp (by simp) tr2 res2 e
          (by rw [hg, h.2.2])

/-! ### Claim theorems -/

/-- Claim C7: for every input list of domain strings, `sanitizeDomain`
returns the ASCII encodings of exactly those input domains whose conversion
succeeds, in the same relative order as the input; hence the output is never
longer than the input and a failing domain is dropped without affecting the
position of the others. -/
theorem sanitizeDomain_order_preserving (env : Env) (domains : List String) :
    sanitizeDomain env domains =
      (domains.filter (fun d => (env.toASCII d).toOption.isSome)).map
        (fun d => ((env.toASCII d).toOption).getD "") ∧
    (sanitizeDomain env domains).length ≤ domains.length := by
  constructor
  · induction domains with
    | nil => rfl
    | cons hd tl ih =>
      unfold sanitizeDomain at ih ⊢
      cases h : (env.toASCII hd).toOption with
      | none => simp [List.filterMap_cons, List.filter_cons, h, ih]
      | some v => simp [List.filterMap_cons, List.filter_cons, h, ih]
  · unfold sanitizeDomain
    induction domains with
    | nil => simp
    | cons hd tl ih =>
      cases h : (env.toASCII hd).toOption with
      | none =>
        simp only [List.filterMap_cons, h, List.length_cons]
        exact Nat.le_succ_of_le ih
      | some v =>
        simp only [List.filterMap_cons, h, List.length_cons]
        exact Nat.succ_le_succ ih

/-- Claim C4: in fresh-domain mode the CSR CommonName equals the first
sanitized domain exactly when that domain is at most 64 characters long and
`DisableCommonName` is unset, and is empty otherwise; the SAN list contains
every order-identifier domain exactly once, never duplicates the CommonName,
and a first domain longer than 64 characters still appears among the SANs but
never as CommonName; `getForOrder` hands exactly these options to the CSR
builder and continues with the produced CSR. -/
theorem getForOrder_commonName_san (env : Env) (c : Certifier) (d0 : String)
    (rest : List String) (order : ExtendedOrder) (request : ObtainRequest)
    (k : PrivateKey) (csrBytes : Bytes)
    (hd0 : d0 ≠ "")
    (hnodup : order.Identifiers.Nodup)
    (hnoempty : "" ∉ order.Identifiers)
    (hkey : request.PrivateKey = some k)
    (hcsr : env.createCSR k
      { Domain := computeCommonName c d0
        SAN := computeSAN (computeCommonName c d0) order.Identifiers
        MustStaple := request.MustStaple
        EmailAddresses := request.EmailAddresses } = .ok csrBytes) :
    (computeCommonName c d0 = d0 ↔
      (d0.length ≤ 64 ∧ c.options.DisableCommonName = false)) ∧
    (computeCommonName c d0 = d0 ∨ computeCommonName c d0 = "") ∧
    (∀ d, d ∈ order.Identifiers →
      (computeSAN (computeCommonName c d0) order.Identifiers).count d = 1) ∧
    ((computeSAN (computeCommonName c d0) order.Identifiers).count
        (computeCommonName c d0) ≤ 1) ∧
    (64 < d0.length →
      computeCommonName c d0 = "" ∧
      (d0 ∈ order.Identifiers →
        d0 ∈ computeSAN (computeCommonName c d0) order.Identifiers)) ∧
    (getForOrder env c (d0 :: rest) order request =
      (Effect.csrCall
          { Domain := computeCommonName c d0
            SAN := computeSAN (computeCommonName c d0) order.Identifiers
            MustStaple := request.MustStaple
            EmailAddresses := request.EmailAddresses } ::
        (getForCSR env c (d0 :: rest) order request.Bundle csrBytes
          (env.pemEncodeKey k) request.PreferredChain).1,
        (getForCSR env c (d0 :: rest) order request.Bundle csrBytes
          (env.pemEncodeKey k) request.PreferredChain).2)) := by
  refine ⟨?_, ?_, ?_, ?_, ?_, ?_⟩
  · unfold computeCommonName
    by_cases hcond : d0.length ≤ 64 ∧ c.options.DisableCommonName = false
    · simp [hcond]
    · simp only [if_neg hcond]
      constructor
      · intro h; exact absurd h.symm hd0
      · intro h; exact absurd h hcond
  · unfold computeCommonName
    by_cases hcond : d0.length ≤ 64 ∧ c.options.DisableCommonName = false
    · exact Or.inl (by simp [hcond])
    · exact Or.inr (by simp [hcond])
  · intro d hmem
    have hdne : d ≠ "" := fun h => hnoempty (h ▸ hmem)
    exact computeSAN_count_mem _ d order.Identifiers hmem hnodup hdne
  · exact computeSAN_count_cn _ order.Identifiers
  · intro hlong
    have hcn : computeCommonName c d0 = "" := by
      unfold computeCommonName
      have : ¬ (d0.length ≤ 64 ∧ c.options.DisableCommonName = false) := by
        intro h; omega
      simp [this]
    refine ⟨hcn, fun hmem => ?_⟩
    exact computeSAN_mem _ d0 order.Identifiers hmem (hcn ▸ hd0)
  · unfold getForOrder
    simp only [hkey, csrOptionsOf]
    rw [hcsr]

/-- Witness for claim C4 at a concrete input. -/
theorem getForOrder_commonName_san_witness :
    (computeCommonName cert60 "example.com" = "example.com" ↔
      (("example.com").length ≤ 64 ∧ cert60.options.DisableCommonName = false)) ∧
    (computeCommonName cert60 "example.com" = "example.com" ∨
      computeCommonName cert60 "example.com" = "") ∧
    (∀ d, d ∈ ["example.com", "www.example.com"] →
      (computeSAN (computeCommonName cert60 "example.com")
        ["example.com", "www.example.com"]).count d = 1) ∧
    ((computeSAN (computeCommonName cert60 "example.com")
        ["example.com", "www.example.com"]).count
      (computeCommonName cert60 "example.com") ≤ 1) ∧
    (64 < ("example.com").length →
      computeCommonName cert60 "example.com" = "" ∧
      ("example.com" ∈ ["example.com", "www.example.com"] →
        "example.com" ∈ computeSAN (computeCommonName cert60 "example.com")
          ["example.com", "www.example.com"])) ∧
    (getForOrder envBase cert60 ["example.com", "www.example.com"]
        { Identifiers := ["example.com", "www.example.com"] }
        { Domains := ["example.com", "www.example.com"], PrivateKey := some 0 } =
      (Effect.csrCall
          { Domain := computeCommonName cert60 "example.com"
            SAN := computeSAN (computeCommonName cert60 "example.com")
              ["example.com", "www.example.com"]
            MustStaple := false
            EmailAddresses := [] } ::
        (getForCSR envBase cert60 ["example.com", "www.example.com"]
          { Identifiers := ["example.com", "www.example.com"] } false [7]
          (envBase.pemEncodeKey 0) "").1,
        (getForCSR envBase cert60 ["example.com", "www.example.com"]
          { Identifiers := ["example.com", "www.example.com"] } false [7]
          (envBase.pemEncodeKey 0) "").2)) := by
  exact getForOrder_commonName_san envBase cert60 "example.com"
    ["www.example.com"]
    { Identifiers := ["example.com", "www.example.com"] }
    { Domains := ["example.com", "www.example.com"], PrivateKey := some 0 }
    0 [7] (by decide) (by decide) (by decide) rfl rfl

/-- Claim C3: for a valid order, chain selection keeps the default entry
keyed by the order's certificate URL when no preference is given; stores the
unique matching candidate's certificate, issuer bytes and URL when a
preference matches exactly one candidate's topmost issuer common name; keeps
the default entry when no candidate matches; and returns success in all
three cases. -/
theorem checkResponse_chain_selection (env : Env) (ord : ExtendedOrder)
    (r : Resource) (bundle : Bool) (certs : List (String × ChainEntry))
    (pref link : String) (entry : ChainEntry)
    (pre post : List (String × ChainEntry))
    (hv : ord.Status = .valid)
    (hget : env.getAll ord.Certificate bundle = .ok certs) :
    (checkResponse env ord r bundle "" =
      ({ r with
          IssuerCertificate := (lookupCert certs ord.Certificate).Issuer
          Certificate := (lookupCert certs ord.Certificate).Cert
          CertURL := ord.Certificate
          CertStableURL := ord.Certificate }, .ok true)) ∧
    (pref ≠ "" →
      certs = pre ++ (link, entry) :: post →
      (∀ q ∈ pre, hasPreferredChain env q.2.Issuer pref = .ok false) →
      hasPreferredChain env entry.Issuer pref = .ok true →
      (∀ q ∈ post, hasPreferredChain env q.2.Issuer pref = .ok false) →
      checkResponse env ord r bundle pref =
        ({ r with
            IssuerCertificate := entry.Issuer
            Certificate := entry.Cert
            CertURL := link
            CertStableURL := link }, .ok true)) ∧
    (pref ≠ "" →
      (∀ q ∈ certs, hasPreferredChain env q.2.Issuer pref = .ok false) →
      checkResponse env ord r bundle pref =
        ({ r with
            IssuerCertificate := (lookupCert certs ord.Certificate).Issuer
            Certificate := (lookupCert certs ord.Certificate).Cert
            CertURL := ord.Certificate
            CertStableURL := ord.Certificate }, .ok true)) := by
  refine ⟨?_, ?_, ?_⟩
  · unfold checkResponse
    simp [checkOrderStatus, hv, hget]
  · intro hpref hcerts hpre hentry hpost
    unfold checkResponse
    simp only [checkOrderStatus, hv, hget]
    rw [if_neg hpref]
    rw [hcerts, findPreferred_skips env pref pre _ _ hpre]
    simp only [findPreferred, hentry]
  · intro hpref hall
    unfold checkResponse
    simp only [checkOrderStatus, hv, hget]
    rw [if_neg hpref]
    rw [findPreferred_no_match env pref certs _ hall]

/-- Witness for claim C3 at a concrete input. -/
theorem checkResponse_chain_selection_witness :
    (checkResponse envChain
        { Status := .valid, Certificate := "cu" } { Domain := "d" } false "" =
      ({ Domain := "d",
         IssuerCertificate := (lookupCert chainCerts "cu").Issuer,
         Certificate := (lookupCert chainCerts "cu").Cert,
         CertURL := "cu",
         CertStableURL := "cu" }, .ok true)) ∧
    (checkResponse envChain
        { Status := .valid, Certificate := "cu" } { Domain := "d" } false "PrefCA" =
      ({ Domain := "d",
         IssuerCertificate := [20],
         Certificate := [10],
         CertURL := "alt",
         CertStableURL := "alt" }, .ok true)) := by
  have h := checkResponse_chain_selection envChain
    { Status := .valid, Certificate := "cu" } { Domain := "d" } false
    chainCerts "PrefCA" "alt" { Cert := [10], Issuer := [20] }
    [("cu", { Cert := [1], Issuer := [2] })] [] rfl rfl
  refine ⟨h.1, ?_⟩
  have h2 := h.2.1 (by decide) rfl
    (by intro q hq; simp at hq; rw [hq]; rfl) rfl
    (by intro q hq; simp at hq)
  exact h2

/-- Claim C5: each poll step classifies the fetched order's status — `valid`
is terminal success, `invalid` is a terminal fatal error carrying the
CA-supplied problem detail, and every other status (`pending`, `ready`,
`processing`) is non-terminal so polling continues; the end-to-end status
sequences `pending, pending, valid`, `pending, invalid` and
forever-`pending` respectively succeed, fail with the CA problem detail, and
fail with a timeout error distinct from the invalid-order error. -/
theorem checkOrderStatus_poll_classification (ordV ordI ordO : ExtendedOrder)
    (hv : ordV.Status = .valid) (hi : ordI.Status = .invalid)
    (ho : ordO.Status = .pending ∨ ordO.Status = .ready ∨
      ordO.Status = .processing) :
    checkOrderStatus ordV = (true, none) ∧
    checkOrderStatus ordI = (false, some (.invalidOrder ordI.ProblemDetail)) ∧
    checkOrderStatus ordO = (false, none) ∧
    (getForCSR envPollValid cert60 ["d"]
        { Finalize := "finU", Location := "locU" } false [5] [9] "" =
      ([Effect.waitCall 60 1],
        some { Domain := "d", CertURL := "certU", CertStableURL := "certU",
               PrivateKey := [9], Certificate := [1], IssuerCertificate := [2] },
        none)) ∧
    (getForCSR envPollInvalid cert60 ["d"]
        { Finalize := "finU", Location := "locU" } false [5] [9] "" =
      ([Effect.waitCall 60 1], some { Domain := "d", PrivateKey := [9] },
        some (.invalidOrder "acme: problem"))) ∧
    (getForCSR envBase cert60 ["d"]
        { Finalize := "finU", Location := "locU" } false [5] [9] "" =
      ([Effect.waitCall 60 1], some { Domain := "d", PrivateKey := [9] },
        some .timeout)) ∧
    (∀ d, Err.timeout ≠ Err.invalidOrder d) := by
  refine ⟨?_, ?_, ?_, rfl, rfl, rfl, fun d h => Err.noConfusion h⟩
  · simp [checkOrderStatus, hv]
  · simp [checkOrderStatus, hi]
  · rcases ho with h | h | h <;> simp [checkOrderStatus, h]

/-- Witness for claim C5 at concrete orders. -/
theorem checkOrderStatus_poll_classification_witness :
    checkOrderStatus { Status := .valid } = (true, none) ∧
    checkOrderStatus { Status := .invalid, ProblemDetail := "p" } =
      (false, some (.invalidOrder "p")) ∧
    checkOrderStatus { Status := .pending } = (false, none) := by
  have h := checkOrderStatus_poll_classification { Status := .valid }
    { Status := .invalid, ProblemDetail := "p" } { Status := .pending }
    rfl rfl (Or.inl rfl)
  exact ⟨h.1, h.2.1, h.2.2.1⟩

/-- Claim C6: the poll loop's total timeout equals `CertifierOptions.Timeout`
when that value is positive and 30 time-units otherwise, and the sampling
interval passed to the wait primitive equals the total timeout divided
by 60. -/
theorem getForCSR_poll_cadence (env : Env) (c : Certifier)
    (domains : List String) (order respOrder : ExtendedOrder)
    (bundle : Bool) (csr pk : Bytes) (pref d0 : String) (rest : List String)
    (hu : env.updateForCSR order.Finalize csr = .ok respOrder)
    (hd : domains = d0 :: rest)
    (hnv : respOrder.Status ≠ .valid) :
    (getForCSR env c domains order bundle csr pk pref).1 =
      [Effect.waitCall (pollTimeout c) (pollTimeout c / 60)] ∧
    (0 < c.options.Timeout → pollTimeout c = c.options.Timeout) ∧
    (c.options.Timeout ≤ 0 → pollTimeout c = 30 * second) := by
  refine ⟨?_, ?_, ?_⟩
  · subst hd
    unfold getForCSR
    rw [hu]
    dsimp only
    rw [if_neg hnv]
    rfl
  · intro h
    unfold pollTimeout
    rw [if_neg (by omega)]
  · intro h
    unfold pollTimeout
    rw [if_pos h]

/-- Claim C1: whenever the challenge solver's `Solve` fails, `Obtain` and
`ObtainForCSR` return a nil resource together with that same error, after
deactivating the order's authorizations exactly when
`AlwaysDeactivateAuthorizations` is set. -/
theorem obtain_solve_error_all_or_nothing (env : Env) (c : Certifier)
    (request : ObtainRequest) (requestC : ObtainForCSRRequest)
    (order orderC : ExtendedOrder) (authz authzC : List Authorization)
    (e eC : Err) (csrReq : CertificateRequest)
    (hdom : request.Domains ≠ [])
    (h1 : env.newOrder (sanitizeDomain env request.Domains)
      (obtainOrderOpts request) = .ok order)
    (h2 : env.getAuthorizations order = .ok authz)
    (h3 : env.solve authz = some e)
    (hcsr : requestC.CSR = some csrReq)
    (h4 : env.newOrder (env.extractDomainsCSR csrReq) (csrOrderOpts requestC) =
      .ok orderC)
    (h5 : env.getAuthorizations orderC = .ok authzC)
    (h6 : env.solve authzC = some eC) :
    Obtain env c request =
      (Effect.newOrderCall (sanitizeDomain env request.Domains) ::
        deactivateAuthorizations order request.AlwaysDeactivateAuthorizations,
        none, some e) ∧
    ObtainForCSR env c requestC =
      (Effect.newOrderCall (env.extractDomainsCSR csrReq) ::
        deactivateAuthorizations orderC requestC.AlwaysDeactivateAuthorizations,
        none, some eC) ∧
    (∀ o2 : ExtendedOrder,
      deactivateAuthorizations o2 true = o2.Authorizations.map Effect.deactivate ∧
      deactivateAuthorizations o2 false = []) := by
  refine ⟨?_, ?_, fun o2 => ⟨rfl, rfl⟩⟩
  · unfold Obtain
    rw [if_neg hdom]
    simp only [h1, h2, h3]
  · unfold ObtainForCSR
    simp only [hcsr, h4, h5, h6]

/-- Witness for claim C1 at a concrete input. -/
theorem obtain_solve_error_all_or_nothing_witness :
    Obtain envSolveFail cert60 { Domains := ["example.com"] } =
      (Effect.newOrderCall ["example.com"] ::
        deactivateAuthorizations ordU false, none, some (.api "solve failed")) := by
  exact (obtain_solve_error_all_or_nothing envSolveFail cert60
    { Domains := ["example.com"] }
    { CSR := some { Raw := [5], Domains := ["d"] } }
    ordU ordU [{ Domain := "example.com" }] [{ Domain := "example.com" }]
    (.api "solve failed") (.api "solve failed") { Raw := [5], Domains := ["d"] }
    (by simp) rfl rfl rfl rfl rfl rfl rfl).1

/-- Counterexample to claim C2 as stated: with a preferred chain configured
and an issuer bundle that fails to parse, `ObtainForCSR` fails after
challenge solving succeeded yet returns a resource whose `Certificate` field
holds the already-stored default chain bytes `[1]`, so the Certificate field
IS populated alongside the aggregated error. -/
theorem obtainForCSR_chain_error_populates_certificate :
    (ObtainForCSR envC2 cert60 reqC2).2.2.isSome = true ∧
    Option.map Resource.Certificate (ObtainForCSR envC2 cert60 reqC2).2.1 =
      some [1] ∧
    some ([1] : Bytes) ≠ some ([] : Bytes) :=
  ⟨rfl, rfl, by decide⟩

/-- Claim C2 (amended): when the CSR pipeline fails after challenge solving,
the resource it returns is either nil (finalize and fast-path failures) or
the partially filled resource of the poll phase, and the `Certificate` field
of a returned resource is unpopulated — except when the failure is a
preferred-chain inspection (PEM parse) error, which can strike after the
default chain was already stored. -/
theorem getForCSR_nonchain_error_certificate_empty (env : Env) (c : Certifier)
    (domains : List String) (order : ExtendedOrder) (bundle : Bool)
    (csr pk : Bytes) (pref : String) (tr : List Effect)
    (res : Option Resource) (e : Err) (henv : ParseErrsTagged env)
    (h : getForCSR env c domains order bundle csr pk pref = (tr, res, some e))
    (hnc : isChainParseErr e = false) :
    res = none ∨ ∃ r, res = some r ∧ r.Certificate = [] := by
  unfold getForCSR at h
  split at h
  next e2 hu =>
    simp only [Prod.mk.injEq, Option.some.injEq] at h
    exact Or.inl h.2.1.symm
  next respOrder hu =>
    split at h
    · simp only [Prod.mk.injEq, Option.some.injEq] at h
      exact Or.inl h.2.1.symm
    next d0 rest =>
      split at h
      · split at h
        next e2 hcr =>
          simp only [Prod.mk.injEq, Option.some.injEq] at h
          exact Or.inl h.2.1.symm
        next rr hcr => simp at h
        next rr hcr =>
          right
          have hrr : rr =
              { Domain := d0, CertURL := respOrder.Certificate,
                PrivateKey := pk } :=
            checkResponse_ok_false env respOrder _ rr bundle pref hcr
          have hres := pollPhase_error_res env c order bundle pref henv rr
            tr res e h hnc
          exact ⟨rr, hres, by rw [hrr]⟩
      · right
        have hres := pollPhase_error_res env c order bundle pref henv _
          tr res e h hnc
        exact ⟨_, hres, rfl⟩

/-- Witness for the amended claim C2 at a concrete input (a timeout run). -/
theorem getForCSR_nonchain_error_certificate_empty_witness :
    (some { Domain := "d", PrivateKey := [9] } : Option Resource) = none ∨
    ∃ r, (some { Domain := "d", PrivateKey := [9] } : Option Resource) =
        some r ∧ r.Certificate = [] := by
  exact getForCSR_nonchain_error_certificate_empty envBase cert60 ["d"]
    { Finalize := "finU", Location := "locU" } false [5] [9] ""
    [Effect.waitCall 60 1] (some { Domain := "d", PrivateKey := [9] })
    .timeout (by intro b e h; simp [envBase] at h) rfl rfl

/-- Witness for claim C6 at a concrete input. -/
theorem getForCSR_poll_cadence_witness :
    (getForCSR envBase cert60 ["d"]
        { Finalize := "finU", Location := "locU" } false [5] [9] "").1 =
      [Effect.waitCall (pollTimeout cert60) (pollTimeout cert60 / 60)] ∧
    (0 < cert60.options.Timeout → pollTimeout cert60 = cert60.options.Timeout) ∧
    (cert60.options.Timeout ≤ 0 → pollTimeout cert60 = 30 * second) := by
  exact getForCSR_poll_cadence envBase cert60 ["d"]
    { Finalize := "finU", Location := "locU" } { Status := .pending } false
    [5] [9] "" "d" [] rfl rfl (by decide)

/-- The benign environment fabricates no panic marker. -/
theorem envBase_noPanic : EnvNoPanic envBase := by
  constructor <;> intro _ _ h <;> first
    | (simp [envBase] at h)
    | (intro h2; simp [envBase] at h2)

/-- Claim C9: `Obtain` checks for an empty domain list only on the raw
request, before sanitization.  When at least one requested domain converts
to ASCII, every later access to the head of the sanitized list is in bounds:
no run can surface the out-of-bounds marker `panicDomains0`, not even inside
the aggregated error.  The precondition is required: with a nonempty raw
list whose every domain fails conversion, the pipeline (all external calls
succeeding) reaches the out-of-bounds access in `getForOrder`. -/
theorem obtain_sanitized_head_access (env : Env) (c : Certifier)
    (request : ObtainRequest) (hnp : EnvNoPanic env)
    (hsan : sanitizeDomain env request.Domains ≠ []) :
    (∀ tr res e, Obtain env c request = (tr, res, some e) → NoPanicErr e) ∧
    (Obtain envNoSan cert60 { Domains := ["bad"] } =
      ([Effect.newOrderCall []], none,
        some (.aggregate [("example.com", .panicDomains0)]))) := by
  refine ⟨?_, rfl⟩
  intro tr res e h
  have hdom : request.Domains ≠ [] := by
    intro hh
    apply hsan
    rw [hh]
    rfl
  unfold Obtain at h
  rw [if_neg hdom] at h
  cases hn : env.newOrder (sanitizeDomain env request.Domains)
      (obtainOrderOpts request) with
  | error e2 =>
    rw [hn] at h
    simp only [Prod.mk.injEq, Option.some.injEq] at h
    exact h.2.2 ▸ hnp.newOrder _ _ _ hn
  | ok order =>
    rw [hn] at h
    dsimp only at h
    cases ha : env.getAuthorizations order with
    | error e2 =>
      rw [ha] at h
      simp only [Prod.mk.injEq, Option.some.injEq] at h
      exact h.2.2 ▸ hnp.getAuthorizations _ _ ha
    | ok authz =>
      rw [ha] at h
      dsimp only at h
      cases hs : env.solve authz with
      | some e2 =>
        rw [hs] at h
        simp only [Prod.mk.injEq, Option.some.injEq] at h
        exact h.2.2 ▸ hnp.solve _ _ hs
      | none =>
        rw [hs] at h
        dsimp only at h
        rcases hg : getForOrder env c (sanitizeDomain env request.Domains)
            order request with ⟨tr0, res0, errO⟩
        rw [hg] at h
        simp only [Prod.mk.injEq] at h
        cases errO with
        | none => simp [obtainErrorJoin] at h
        | some e0 =>
          have hnp0 : NoPanicErr e0 :=
            getForOrder_error_noPanic env c _ order request hnp hsan
              tr0 res0 e0 hg
          cases authz with
          | nil => simp [obtainErrorJoin] at h
          | cons a as =>
            have h22 := h.2.2
            simp only [List.map_cons, obtainErrorJoin,
              Option.some.injEq] at h22
            rw [← h22]
            constructor
            · simp
            · intro pairs hp q hq
              injection hp with hp2
              rw [← hp2] at hq
              rcases List.mem_cons.mp hq with hq1 | hq2
              · rw [hq1]
                exact hnp0.1
              · rcases List.mem_map.mp hq2 with ⟨a2, ha2, hq3⟩
                rw [← hq3]
                exact hnp0.1

/-- Witness for claim C9 at a concrete input. -/
theorem obtain_sanitized_head_access_witness :
    (∀ tr res e,
      Obtain envBase cert60 { Domains := ["example.com"] } =
        (tr, res, some e) → NoPanicErr e) ∧
    (Obtain envNoSan cert60 { Domains := ["bad"] } =
      ([Effect.newOrderCall []], none,
        some (.aggregate [("example.com", .panicDomains0)]))) := by
  exact obtain_sanitized_head_access envBase cert60
    { Domains := ["example.com"] } envBase_noPanic (by decide)

/-- Claim C10: every resource returned on success (nil error) by `Obtain`,
`ObtainForCSR` or `Get` has `CertStableURL` equal to `CertURL`, both set to
the URL of the certificate chain actually selected: for the two issuance
entry points the resource's URL and certificate/issuer bytes are exactly the
candidate that `checkResponse` picked out of the chain map fetched for the
final order (a preferred-chain match or the order-certificate-keyed default);
for `Get`, both URL fields carry the requested chain URL. -/
theorem success_resource_stable_url (env : Env) (c : Certifier)
    (request : ObtainRequest) (requestC : ObtainForCSRRequest) (url : String)
    (bundle : Bool)
    (hauth : ∀ o l, env.getAuthorizations o = .ok l → l ≠ []) :
    (∀ tr r, Obtain env c request = (tr, some r, none) →
      ∃ ord certs, env.getAll ord.Certificate request.Bundle = .ok certs ∧
        SelectedChain certs ord r) ∧
    (∀ tr r, ObtainForCSR env c requestC = (tr, some r, none) →
      ∃ ord certs, env.getAll ord.Certificate requestC.Bundle = .ok certs ∧
        SelectedChain certs ord r) ∧
    (∀ r, Get env url bundle = .ok r →
      r.CertStableURL = r.CertURL ∧ r.CertURL = url) := by
  refine ⟨?_, ?_, ?_⟩
  · intro tr r h
    by_cases hdom : request.Domains = []
    · rw [Obtain, if_pos hdom] at h
      simp at h
    unfold Obtain at h
    rw [if_neg hdom] at h
    cases hn : env.newOrder (sanitizeDomain env request.Domains)
        (obtainOrderOpts request) with
    | error e2 => rw [hn] at h; simp at h
    | ok order =>
      rw [hn] at h
      dsimp only at h
      cases ha : env.getAuthorizations order with
      | error e2 => rw [ha] at h; simp at h
      | ok authz =>
        rw [ha] at h
        dsimp only at h
        cases hs : env.solve authz with
        | some e2 => rw [hs] at h; simp at h
        | none =>
          rw [hs] at h
          dsimp only at h
          rcases hg : getForOrder env c (sanitizeDomain env request.Domains)
              order request with ⟨tr0, res0, errO⟩
          rw [hg] at h
          simp only [Prod.mk.injEq] at h
          cases errO with
          | some e0 =>
            have hp := obtainErrorJoin_eq_none _ h.2.2
            have hanil : authz = [] := by simpa using hp
            exact absurd hanil (hauth order authz ha)
          | none =>
            exact getForOrder_ok_selected env c _ order request tr0 r
              (by rw [hg, h.2.1])
  · intro tr r h
    unfold ObtainForCSR at h
    cases hcr : requestC.CSR with
    | none => rw [hcr] at h; simp at h
    | some csrReq =>
      rw [hcr] at h
      dsimp only at h
      cases hn : env.newOrder (env.extractDomainsCSR csrReq)
          (csrOrderOpts requestC) with
      | error e2 => rw [hn] at h; simp at h
      | ok order =>
        rw [hn] at h
        dsimp only at h
        cases ha : env.getAuthorizations order with
        | error e2 => rw [ha] at h; simp at h
        | ok authz =>
          rw [ha] at h
          dsimp only at h
          cases hs : env.solve authz with
          | some e2 => rw [hs] at h; simp at h
          | none =>
            rw [hs] at h
            dsimp only at h
            rcases hg : getForCSR env c (env.extractDomainsCSR csrReq) order
                requestC.Bundle csrReq.Raw
                (match requestC.PrivateKey with
                 | some k => env.pemEncodeKey k
                 | none => []) requestC.PreferredChain with ⟨tr0, res0, errO⟩
            rw [hg] at h
            simp only [Prod.mk.injEq] at h
            cases errO with
            | some e0 =>
              have hp := obtainErrorJoin_eq_none _ h.2.2
              have hanil : authz = [] := by simpa using hp
              exact absurd hanil (hauth order authz ha)
            | none =>
              cases res0 with
              | none => simp at h
              | some r1 =>
                have hr : { r1 with CSR := env.pemEncodeCSR csrReq } = r := by
                  have := h.2.1
                  simpa using this
                obtain ⟨ord, certs, hcerts, hsel⟩ :=
                  getForCSR_ok_selected env c (env.extractDomainsCSR csrReq)
                    order requestC.Bundle csrReq.Raw _
                    requestC.PreferredChain tr0 r1 (by rw [hg])
                rw [← hr]
                exact ⟨ord, certs, hcerts, hsel⟩
  · intro r h
    unfold Get at h
    split at h
    · simp at h
    next cert issuer hcg =>
      split at h
      · simp at h
      next x509Certs hp =>
        split at h
        · simp at h
        next leaf hl =>
          split at h
          · simp at h
          next domain hdm =>
            injection h with h2
            rw [← h2]
            exact ⟨rfl, rfl⟩

/-- Witness for claim C10 at a concrete input. -/
theorem success_resource_stable_url_witness :
    (∀ tr r, Obtain envPollValid cert60 { Domains := ["example.com"] } =
      (tr, some r, none) →
      ∃ ord certs, envPollValid.getAll ord.Certificate false = .ok certs ∧
        SelectedChain certs ord r) ∧
    (∀ tr r, ObtainForCSR envPollValid cert60
        { CSR := some { Raw := [5], Domains := ["d"] } } =
      (tr, some r, none) →
      ∃ ord certs, envPollValid.getAll ord.Certificate false = .ok certs ∧
        SelectedChain certs ord r) ∧
    (∀ r, Get envPollValid "u" false = .ok r →
      r.CertStableURL = r.CertURL ∧ r.CertURL = "u") := by
  exact success_resource_stable_url envPollValid cert60
    { Domains := ["example.com"] } { CSR := some { Raw := [5], Domains := ["d"] } }
    "u" false
    (by intro o l h; simp [envPollValid, envBase] at h; rw [← h]; simp)

/-- Claim C8: `RenewWithOptions` rejects, without contacting the CA, a stored
certificate whose first entry is a CA certificate; with a nonempty stored
CSR it decodes it and re-enters `ObtainForCSR` (the options' MustStaple and
EmailAddresses are not forwarded on this path — the rebuilt request is
insensitive to them); with an empty CSR field it re-enters `Obtain` with the
domain list extracted from the stored certificate, parsing and reusing the
stored private key exactly when one is present. -/
theorem renewWithOptions_dispatch (env : Env) (c : Certifier)
    (certRes : Resource) (o : RenewOptions) (x509Cert : X509Cert)
    (restCerts : List X509Cert) (csrReq : CertificateRequest) (k : PrivateKey)
    (hparse : env.parsePEMBundle certRes.Certificate =
      .ok (x509Cert :: restCerts)) :
    (x509Cert.IsCA = true →
      RenewWithOptions env c certRes (some o) =
        ([], none, some (.caCertificate certRes.Domain))) ∧
    (x509Cert.IsCA = false → 0 < certRes.CSR.length →
      env.pemDecodeCSR certRes.CSR = .ok csrReq →
      (RenewWithOptions env c certRes (some o) =
        ObtainForCSR env c
          { CSR := some csrReq
            NotBefore := o.NotBefore
            NotAfter := o.NotAfter
            Bundle := o.Bundle
            PreferredChain := o.PreferredChain
            Profile := o.Profile
            AlwaysDeactivateAuthorizations :=
              o.AlwaysDeactivateAuthorizations }) ∧
      (∀ m ea, RenewWithOptions env c certRes
          (some { o with MustStaple := m, EmailAddresses := ea }) =
        RenewWithOptions env c certRes (some o))) ∧
    (x509Cert.IsCA = false → certRes.CSR = [] →
      (certRes.PrivateKey = [] →
        RenewWithOptions env c certRes (some o) =
          Obtain env c
            { Domains := env.extractDomains x509Cert
              PrivateKey := none
              MustStaple := o.MustStaple
              NotBefore := o.NotBefore
              NotAfter := o.NotAfter
              Bundle := o.Bundle
              PreferredChain := o.PreferredChain
              EmailAddresses := o.EmailAddresses
              Profile := o.Profile
              AlwaysDeactivateAuthorizations :=
                o.AlwaysDeactivateAuthorizations }) ∧
      (certRes.PrivateKey ≠ [] →
        env.parsePEMPrivateKey certRes.PrivateKey = .ok k →
        RenewWithOptions env c certRes (some o) =
          Obtain env c
            { Domains := env.extractDomains x509Cert
              PrivateKey := some k
              MustStaple := o.MustStaple
              NotBefore := o.NotBefore
              NotAfter := o.NotAfter
              Bundle := o.Bundle
              PreferredChain := o.PreferredChain
              EmailAddresses := o.EmailAddresses
              Profile := o.Profile
              AlwaysDeactivateAuthorizations :=
                o.AlwaysDeactivateAuthorizations })) := by
  refine ⟨?_, ?_, ?_⟩
  · intro hca
    unfold RenewWithOptions
    rw [hparse]
    simp only [List.head?_cons]
    rw [if_pos hca]
  · intro hca hlen hdec
    constructor
    · unfold RenewWithOptions
      rw [hparse]
      simp only [List.head?_cons]
      rw [if_neg (by simp [hca]), if_pos hlen, hdec]
    · intro m ea
      unfold RenewWithOptions
      rw [hparse]
      simp only [List.head?_cons]
      rw [if_neg (by simp [hca])]
      rw [if_pos hlen]
      rw [if_neg (by simp [hca])]
      rw [if_pos hlen]
  · intro hca hcsrempty
    constructor
    · intro hpk
      unfold RenewWithOptions
      rw [hparse]
      simp only [List.head?_cons]
      rw [if_neg (by simp [hca]), if_neg (by simp [hcsrempty]), if_pos hpk]
    · intro hpk hkp
      unfold RenewWithOptions
      rw [hparse]
      simp only [List.head?_cons]
      rw [if_neg (by simp [hca]), if_neg (by simp [hcsrempty]),
        if_neg hpk, hkp]

/-- Witness for claim C8 at a concrete input (empty CSR, no stored key). -/
theorem renewWithOptions_dispatch_witness :
    RenewWithOptions envBase cert60 { Domain := "d", Certificate := [3] }
        (some {}) =
      Obtain envBase cert60 { Domains := [] } := by
  exact ((renewWithOptions_dispatch envBase cert60
    { Domain := "d", Certificate := [3] } {}
    { IssuerCommonName := "DefaultCA" } [] {} 1 rfl).2.2 rfl rfl).1 rfl

end LegoCert
